import Mathlib

/-!
Verification development for the `displayrecorder` screen-recording program.

The definitions below are a shallow embedding of the Rust sources:

* `src/capture.rs` — `CaptureFrameWait` (the frame pump): an OS callback
  pushes captured frames into a single-producer/single-consumer FIFO
  channel; the consumer pulls them with `try_get_next_frame`, which closes
  the previously returned frame first; `stop_capture` enqueues a `none`
  sentinel; `Drop` closes the capture session and then the frame pool.
* `src/encoder.rs` — `VideoEncoderDevice::enumerate` and
  `get_string_attribute`: display names for enumerated hardware encoders,
  with a literal "Unknown" fallback when the friendly-name attribute is
  missing.
* `src/main.rs` — `run`, `main`, `validate_path`: argument checks, output
  file creation and the order of the recording resources' acquisition.

The channel is modelled as the explicit FIFO list `queue`; a blocking
`recv` is represented by `try_get_next_frame` returning `none` when the
queue is empty (the call would not return yet).  OS handles (frame pool,
capture session) are modelled by open/closed flags, and `Close` calls are
additionally recorded as `CloseEvent` traces so that teardown ordering can
be stated.  Frames are identified by the `Nat` id the environment stamps
on them; `nextId` is the environment's supply of fresh frames and
`returned`/`closed` are bookkeeping of which frame ids were handed to the
consumer and which were `Close`d — they record exactly what the Rust code
does to its `Direct3D11CaptureFrame` values.
-/

/-- A captured frame, identified by the id the environment gave it
(distinct `Direct3D11CaptureFrame` objects are distinct). -/
structure Frame where
  id : Nat
deriving DecidableEq, Repr

/-- A `Close` call on one of the two OS resources owned by the pump. -/
inductive CloseEvent where
  | pool
  | session
deriving DecidableEq, Repr

/-- State of `CaptureFrameWait` (src/capture.rs) together with the channel
contents and bookkeeping of frame ids.  `queue` is the mpsc channel:
`some f` is a frame sent by the arrival callback, `none` is the stop
sentinel sent by `stop_capture`. -/
structure PumpState where
  queue : List (Option Frame)
  current_frame : Option Frame
  pool_open : Bool
  session_open : Bool
  /-- ids of frames on which the pump has called `Close`. -/
  closed : List Nat
  /-- ids of frames returned to the consumer by `try_get_next_frame`,
  in order. -/
  returned : List Nat
  /-- environment: the id the next OS-captured frame will carry. -/
  nextId : Nat
deriving DecidableEq, Repr

/-- The state right after `CaptureFrameWait::new`: empty channel, no
current frame, frame pool and capture session open (capture starts at
construction). -/
def initPump : PumpState :=
  { queue := [], current_frame := none, pool_open := true,
    session_open := true, closed := [], returned := [], nextId := 0 }

/-- `CaptureFrameWait::try_get_next_frame` (src/capture.rs:88-106).
First closes `current_frame` (if any), then blocks on `receiver.recv()`:
modelled as `none` when the channel is empty (the call has not returned),
and otherwise as `some (result, state')` where `result` is the received
message — `some f` stores `f` as the new current frame, the sentinel
`none` is returned as end-of-stream. -/
def try_get_next_frame (s : PumpState) : Option (Option Frame × PumpState) :=
  match s.queue with
  | [] => none
  | msg :: rest =>
    let closed := match s.current_frame with
      | some f => s.closed ++ [f.id]
      | none => s.closed
    match msg with
    | some f =>
      some (some f,
        { s with queue := rest, current_frame := some f, closed := closed,
                 returned := s.returned ++ [f.id] })
    | none =>
      some (none,
        { s with queue := rest, current_frame := none, closed := closed })

/-- `CaptureFrameWait::stop_capture` (src/capture.rs:108-111):
`self.sender.send(None)` — enqueue the sentinel, touch nothing else. -/
def stop_capture (s : PumpState) : PumpState :=
  { s with queue := s.queue ++ [none] }

/-- The `FrameArrived` handler registered in `CaptureFrameWait::new`
(src/capture.rs:60-74).  It fetches the new frame `f` from the pool and
sends it on the channel; `mpsc::Sender::send` fails exactly when the
receiving side has been dropped (`receiver_alive = false`), and in that
case — and only that case — the handler closes the frame pool and then
the capture session.  The returned trace lists the `Close` calls made. -/
def on_frame_arrived (receiver_alive : Bool) (f : Frame) (s : PumpState) :
    PumpState × List CloseEvent :=
  if receiver_alive then
    ({ s with queue := s.queue ++ [some f] }, [])
  else
    ({ s with pool_open := false, session_open := false },
     [CloseEvent.pool, CloseEvent.session])

/-- `impl Drop for CaptureFrameWait` (src/capture.rs:114-119):
`self.session.Close()` then `self.frame_pool.Close()`, in that order. -/
def dropPump (s : PumpState) : PumpState × List CloseEvent :=
  ({ s with session_open := false, pool_open := false },
   [CloseEvent.session, CloseEvent.pool])

/-- Whether a trace of `Close` calls closes the frame pool strictly
before the capture session. -/
def closesPoolBeforeSession (tr : List CloseEvent) : Bool :=
  match tr.findIdx? (fun e => e == CloseEvent.pool),
        tr.findIdx? (fun e => e == CloseEvent.session) with
  | some i, some j => decide (i < j)
  | _, _ => false

/-- Events the consumer-side can drive on the pump: a pull
(`try_get_next_frame`; a no-op while the channel is empty and the call is
still blocked), `stop_capture`, and the arrival callback delivering a
fresh OS frame (the receiver is alive while the pump exists). -/
inductive PumpOp where
  | pull
  | stop
  | arrive
deriving DecidableEq, Repr

/-- One step of the pump's evolution. -/
def stepPump (op : PumpOp) (s : PumpState) : PumpState :=
  match op with
  | .pull =>
    match try_get_next_frame s with
    | some (_, s') => s'
    | none => s
  | .stop => stop_capture s
  | .arrive =>
    let s' := (on_frame_arrived true ⟨s.nextId⟩ s).1
    { s' with nextId := s.nextId + 1 }

/-- Run a sequence of pump operations from a state. -/
def runPump (ops : List PumpOp) (s : PumpState) : PumpState :=
  ops.foldl (fun s op => stepPump op s) s

/-- The results of `n` further successful calls to `try_get_next_frame`
(stopping early if a call would block forever). -/
def pullResults : Nat → PumpState → List (Option Frame)
  | 0, _ => []
  | n + 1, s =>
    match try_get_next_frame s with
    | none => []
    | some (r, s') => r :: pullResults n s'

/-- Frame ids currently sitting in the channel. -/
def queueIds (s : PumpState) : List Nat :=
  s.queue.filterMap (fun m => m.map Frame.id)

/-- Frame ids handed to the consumer and not yet `Close`d. -/
def unreleased (s : PumpState) : List Nat :=
  s.returned.filter (fun i => decide (i ∉ s.closed))

/-- Inductive invariant of the pump: queued frame ids are distinct, fresh
(not yet returned, below the environment counter), every closed id was
returned, and the returned-but-unreleased ids are exactly the current
frame. -/
def PumpInv (s : PumpState) : Prop :=
  (queueIds s).Nodup ∧
  (∀ i ∈ queueIds s, i ∉ s.returned ∧ i < s.nextId) ∧
  (∀ i ∈ s.returned, i < s.nextId) ∧
  (∀ i ∈ s.closed, i ∈ s.returned) ∧
  unreleased s = (s.current_frame.map Frame.id).toList

/-!
## Encoder enumeration (src/encoder.rs)

The platform's answer to the friendly-name attribute query of one
enumerated transform is abstracted as an `AttrQuery`: the attribute is
present with a value, absent (`GetStringLength` fails with
`MF_E_ATTRIBUTENOTFOUND`), or the read fails with some other HRESULT.
-/

/-- The HRESULT `MF_E_ATTRIBUTENOTFOUND` (0xC00D36E6). -/
def MF_E_ATTRIBUTENOTFOUND : Nat := 0xC00D36E6

/-- Platform behaviour of the friendly-name attribute of one enumerated
encoder transform. -/
inductive AttrQuery where
  | present (s : String)
  | absent
  | failing (code : Nat)
deriving DecidableEq, Repr

/-- The raw `GetStringLength`/`GetString` call pair, collapsed to its one
observable outcome: the string, or the failing HRESULT
(`MF_E_ATTRIBUTENOTFOUND` when the attribute is missing). -/
def attrCall : AttrQuery → Except Nat String
  | .present s => .ok s
  | .absent => .error MF_E_ATTRIBUTENOTFOUND
  | .failing code => .error code

/-- `get_string_attribute` (src/encoder.rs:104-130): on success the
string; on failure, `Ok(None)` exactly when the error is
`MF_E_ATTRIBUTENOTFOUND`, any other error propagated. -/
def get_string_attribute (q : AttrQuery) : Except Nat (Option String) :=
  match attrCall q with
  | .ok s => .ok (some s)
  | .error e =>
    if e = MF_E_ATTRIBUTENOTFOUND then .ok none else .error e

/-- The display names assigned by `VideoEncoderDevice::enumerate`
(src/encoder.rs:21-50): for each enumerated transform, the friendly name
when `get_string_attribute` yields one, the literal `"Unknown"` when it
yields `None`; the first propagated error aborts the whole
enumeration. -/
def enumerateNames : List AttrQuery → Except Nat (List String)
  | [] => .ok []
  | q :: rest =>
    match get_string_attribute q with
    | .error e => .error e
    | .ok d =>
      let name := match d with
        | some d => d
        | none => "Unknown"
      match enumerateNames rest with
      | .error e => .error e
      | .ok names => .ok (name :: names)

/-- The display name the enumeration assigns to one transform, per the
spec: the platform-reported name when present, `"Unknown"` when the
attribute is missing. -/
def specName : AttrQuery → String
  | .present s => s
  | .absent => "Unknown"
  | .failing _ => "Unknown"

/-- Whether an attribute query fails with an error other than
`MF_E_ATTRIBUTENOTFOUND` (the case the code propagates). -/
def hardFails : AttrQuery → Bool
  | .failing c => decide (c ≠ MF_E_ATTRIBUTENOTFOUND)
  | _ => false

/-- The HRESULT of the first hard-failing query in the list, if any. -/
def firstHardFail (qs : List AttrQuery) : Option Nat :=
  match qs.find? hardFails with
  | some (.failing c) => some c
  | _ => none

/-!
## `run` and `main` (src/main.rs)

`run` is embedded as a function from its arguments and an environment of
OS-call outcomes to an outcome and the trace of recording-resource events
it performed.  Each fallible platform call the control flow depends on is
a boolean (or richer) field of `RunEnv`; printing and the
wait-for-debugger loop have no modelled effect.
-/

/-- `Windows.Storage.CreationCollisionOption`. -/
inductive CollisionOption where
  | generateUniqueName
  | replaceExisting
  | failIfExists
  | openIfExists
deriving DecidableEq, Repr

/-- `Windows.Storage.FileAccessMode`. -/
inductive AccessMode where
  | read
  | readWrite
deriving DecidableEq, Repr

/-- Recording-resource events performed by `run`. -/
inductive RunEvent where
  | createFile (collision : CollisionOption)
  | openStream (mode : AccessMode)
  | createSession (bitRate : Nat)
  | sessionStart
  | sessionStop
deriving DecidableEq, Repr

/-- How a call of `run` (or `main`) ends. -/
inductive RunOutcome where
  /-- returned `Ok(())`. -/
  | ok
  /-- `exit_with_error` / `std::process::exit(code)`. -/
  | exited (code : Nat)
  /-- a panic (`expect` / `unwrap` failure). -/
  | panicked
  /-- an `Err` propagated by `?`. -/
  | errored
deriving DecidableEq, Repr

/-- Outcomes of the fallible platform calls `run` makes, in program
order. -/
structure RunEnv where
  /-- `RoInitialize` succeeds. -/
  ro_ok : Bool
  /-- `MFStartup` succeeds. -/
  mf_ok : Bool
  /-- `required_capture_features_supported()`: `Err` or `Ok(supported)`. -/
  capture_check : Except Unit Bool
  /-- number of monitors reported by `enumerate_displays`. -/
  display_count : Nat
  /-- `create_capture_item_for_monitor` succeeds. -/
  item_ok : Bool
  /-- `item.Size()` succeeds (queried only for native resolution). -/
  item_size_ok : Bool
  /-- the transforms returned by `MFTEnumEx`, with the platform behaviour
  of each one's friendly-name attribute. -/
  mft_encoders : List AttrQuery
  /-- `GetFullPathNameW` and the `unwrap`ed path manipulation succeed. -/
  path_ok : Bool
  /-- `StorageFolder::GetFolderFromPathAsync` succeeds. -/
  folder_ok : Bool
  /-- `CreateFileAsync` succeeds. -/
  file_create_ok : Bool
  /-- `file.OpenAsync` succeeds. -/
  stream_open_ok : Bool
  /-- `create_d3d_device` succeeds. -/
  d3d_ok : Bool
  /-- `VideoEncodingSession::new` succeeds. -/
  session_ok : Bool
  /-- `session.start()` succeeds. -/
  session_start_ok : Bool
  /-- `session.stop()` succeeds. -/
  session_stop_ok : Bool
deriving Repr

/-- `Resolution` (src/resolution.rs). -/
inductive Resolution where
  | native
  | r720p
  | r1080p
  | r2160p
  | r4320p
deriving DecidableEq, Repr

/-- `Resolution::get_size` (src/resolution.rs:32-54), `none` for
`Native`, otherwise the fixed width/height pair. -/
def Resolution.get_size : Resolution → Option (Nat × Nat)
  | .native => none
  | .r720p => some (1280, 720)
  | .r1080p => some (1920, 1080)
  | .r2160p => some (3840, 2160)
  | .r4320p => some (7680, 4320)

/-- Arguments `main` passes to `run`, already parsed. -/
structure RunArgs where
  display_index : Nat
  output_path : String
  /-- the `-bitRate` value, in Mbps (a `u32`). -/
  bit_rate_mbps : Nat
  frame_rate : Nat
  resolution : Resolution
  encoder_index : Nat
deriving Repr

/-- `let bit_rate = bit_rate * 1000000;` (src/main.rs:99): a `u32`
multiplication, which wraps modulo 2^32 (release-build semantics). -/
def bitRateBits (mbps : Nat) : Nat :=
  (mbps * 1000000) % 2 ^ 32

/-- The resolution step of `run` (src/main.rs:94-98): a fixed resolution
needs no platform call; `Native` queries `item.Size()`, which can fail. -/
def sizeOk (env : RunEnv) (a : RunArgs) : Bool :=
  match a.resolution.get_size with
  | some _ => true
  | none => env.item_size_ok

/-- `run` (src/main.rs:47-165): the sequence of checks and fallible
calls in source order, returning the outcome and the trace of
recording-resource events (each event is recorded when the corresponding
call succeeds). -/
def runModel (env : RunEnv) (a : RunArgs) : RunOutcome × List RunEvent :=
  if !env.ro_ok then (.errored, [])
  else if !env.mf_ok then (.errored, [])
  else match env.capture_check with
  | .error _ => (.errored, [])
  | .ok supported =>
    if !supported then (.exited 1, [])
    else if !decide (a.display_index < env.display_count) then (.panicked, [])
    else if !env.item_ok then (.errored, [])
    else if !sizeOk env a then (.errored, [])
    else match enumerateNames env.mft_encoders with
    | .error _ => (.errored, [])
    | .ok encoder_devices =>
      if encoder_devices.isEmpty then (.exited 1, [])
      else if !decide (a.encoder_index < encoder_devices.length) then
        (.exited 1, [])
      else if !env.path_ok then (.panicked, [])
      else if !env.folder_ok then (.errored, [])
      else if !env.file_create_ok then (.errored, [])
      else if !env.stream_open_ok then
        (.errored, [RunEvent.createFile .replaceExisting])
      else if !env.d3d_ok then
        (.errored, [RunEvent.createFile .replaceExisting,
                    RunEvent.openStream .readWrite])
      else if !env.session_ok then
        (.errored, [RunEvent.createFile .replaceExisting,
                    RunEvent.openStream .readWrite])
      else if !env.session_start_ok then
        (.errored, [RunEvent.createFile .replaceExisting,
                    RunEvent.openStream .readWrite,
                    RunEvent.createSession (bitRateBits a.bit_rate_mbps)])
      else if !env.session_stop_ok then
        (.errored, [RunEvent.createFile .replaceExisting,
                    RunEvent.openStream .readWrite,
                    RunEvent.createSession (bitRateBits a.bit_rate_mbps),
                    RunEvent.sessionStart])
      else
        (.ok, [RunEvent.createFile .replaceExisting,
               RunEvent.openStream .readWrite,
               RunEvent.createSession (bitRateBits a.bit_rate_mbps),
               RunEvent.sessionStart, RunEvent.sessionStop])

/-!
## Output-path validation (src/main.rs:353-364 and the `main` gate)

`validate_path` inspects `Path::extension()`.  The Rust `Path` semantics
(Windows build: both `/` and `\` separate components) are embedded:
`file_name` is the last normal component (`.` components are skipped, a
path ending in `..` or with no component has no file name), and
`extension` is the part of the file name after its last `.`, unless there
is no `.` or the only `.` starts the name.
-/

/-- Whether a character separates path components (Windows build of the
Rust standard library: `/` and `\`). -/
def isPathSep (c : Char) : Bool :=
  c == '/' || c == '\\'

/-- Split a character list at every character satisfying `p`; the chunks
between separators are kept, empty chunks included. -/
def splitChars (p : Char → Bool) : List Char → List (List Char)
  | [] => [[]]
  | c :: rest =>
    let r := splitChars p rest
    if p c then [] :: r
    else match r with
      | [] => [[c]]
      | x :: xs => (c :: x) :: xs

/-- `Path::file_name`: the last non-`.` component; `none` when every
component is special or the path ends in `..`. -/
def fileNameOf (p : String) : Option String :=
  let comps := (splitChars isPathSep p.toList).filter
    (fun s => !(s.isEmpty || s == ['.']))
  match comps.getLast? with
  | none => none
  | some last =>
    if last == ['.', '.'] then none else some (String.mk last)

/-- Index of the last `.` in a list of characters, if any. -/
def lastDotIdx (cs : List Char) : Option Nat :=
  cs.enum.foldl (fun acc ic => if ic.2 == '.' then some ic.1 else acc) none

/-- `Path::extension`: the portion of the file name after its final `.`;
`none` when there is no file name, no `.`, or the final `.` begins the
file name. -/
def extensionOf (p : String) : Option String :=
  match fileNameOf p with
  | none => none
  | some name =>
    let cs := name.toList
    match lastDotIdx cs with
    | none => none
    | some i => if i == 0 then none else some (String.mk (cs.drop (i + 1)))

/-- `validate_path` (src/main.rs:353-364): `valid` starts `true`, is set
to `false` when the extension differs from `"mp4"` or is missing. -/
def validate_path (p : String) : Bool :=
  let valid := true
  match extensionOf p with
  | some ext => if ext ≠ "mp4" then false else valid
  | none => false

/-- `main` after argument parsing (src/main.rs:290-304): `validate_path`
gates the call of `run` — an invalid path exits with code 1 before `run`
is entered, so before any recording resource is touched. -/
def mainModel (env : RunEnv) (a : RunArgs) : RunOutcome × List RunEvent :=
  if !validate_path a.output_path then (.exited 1, [])
  else runModel env a

/-- How many files a trace of run events creates. -/
def countCreateFile : List RunEvent → Nat
  | [] => 0
  | RunEvent.createFile _ :: rest => countCreateFile rest + 1
  | _ :: rest => countCreateFile rest

/-- A concrete environment in which every platform call succeeds and one
encoder named "Encoder A" is enumerated. -/
def happyEnv : RunEnv :=
  { ro_ok := true, mf_ok := true, capture_check := .ok true,
    display_count := 1, item_ok := true, item_size_ok := true,
    mft_encoders := [AttrQuery.present "Encoder A"], path_ok := true,
    folder_ok := true, file_create_ok := true, stream_open_ok := true,
    d3d_ok := true, session_ok := true, session_start_ok := true,
    session_stop_ok := true }

/-- Concrete arguments: display 0, an mp4 output path, 4295 Mbps (chosen
above the `u32` overflow threshold), 60 fps, native resolution,
encoder 0. -/
def sampleArgs : RunArgs :=
  { display_index := 0, output_path := "recording.mp4",
    bit_rate_mbps := 4295, frame_rate := 60, resolution := .native,
    encoder_index := 0 }

/-- `sampleArgs` with an output path whose extension is not "mp4". -/
def badPathArgs : RunArgs :=
  { sampleArgs with output_path := "recording.avi" }

/-!
## Theorems
-/

/-- Pulling `n` times returns the first `n` channel messages, in FIFO
order. -/
theorem pullResults_take (n : Nat) :
    ∀ s : PumpState, n ≤ s.queue.length → pullResults n s = s.queue.take n := by
  induction n with
  | zero => intro s _; simp [pullResults]
  | succ n ih =>
    intro s h
    cases hq : s.queue with
    | nil => rw [hq] at h; simp at h
    | cons msg rest =>
      have hn : n ≤ rest.length := by
        rw [hq] at h
        simpa using Nat.le_of_succ_le_succ h
      cases hc : s.current_frame with
      | some c =>
        cases msg with
        | some f =>
          simp [pullResults, try_get_next_frame, hq, hc]
          exact ih _ (by simpa using hn)
        | none =>
          simp [pullResults, try_get_next_frame, hq, hc]
          exact ih _ (by simpa using hn)
      | none =>
        cases msg with
        | some f =>
          simp [pullResults, try_get_next_frame, hq, hc]
          exact ih _ (by simpa using hn)
        | none =>
          simp [pullResults, try_get_next_frame, hq, hc]
          exact ih _ (by simpa using hn)

/-- C1 (corrected): after `stop_capture`, the consumer first receives
every frame that was already queued on the channel, in FIFO order, and
only then end-of-stream — the sentinel arrives exactly once, as the last
of these `queue.length + 1` pulls, and no frame queued before the stop is
ever returned after it. -/
theorem stop_then_drain_then_end (s : PumpState) :
    pullResults (s.queue.length + 1) (stop_capture s) = s.queue ++ [none] := by
  have hq : (stop_capture s).queue = s.queue ++ [none] := rfl
  have hlen : s.queue.length + 1 ≤ (stop_capture s).queue.length := by
    simp [hq]
  rw [pullResults_take _ _ hlen, hq]
  have hl : (s.queue ++ [none]).length = s.queue.length + 1 := by simp
  rw [← hl, List.take_length]

/-- C1 (counterexample): it is not true that the very next
`try_get_next_frame` after `stop_capture` returns end-of-stream — from
the reachable state where one frame is already queued, the next pull
returns that frame, not the sentinel. -/
theorem stop_not_immediately_end_of_stream :
    ¬ ∀ s : PumpState, pullResults 1 (stop_capture s) = [none] := by
  intro h
  exact absurd (h (runPump [PumpOp.arrive] initPump)) (by decide)

/-- C6: `stop_capture` only appends the `none` sentinel to the channel;
the current frame, the pool/session handles and all bookkeeping are left
untouched. -/
theorem stop_capture_only_sends_sentinel (s : PumpState) :
    (stop_capture s).queue = s.queue ++ [none] ∧
    (stop_capture s).current_frame = s.current_frame ∧
    (stop_capture s).pool_open = s.pool_open ∧
    (stop_capture s).session_open = s.session_open ∧
    (stop_capture s).closed = s.closed ∧
    (stop_capture s).returned = s.returned ∧
    (stop_capture s).nextId = s.nextId :=
  ⟨rfl, rfl, rfl, rfl, rfl, rfl, rfl⟩

/-- C3 (counterexample): the claim that the frame pool is closed before
the capture session in *both* teardown paths is false — `Drop` closes the
session first: its trace is `[session, pool]`. -/
theorem drop_closes_session_before_pool :
    (dropPump initPump).2 = [CloseEvent.session, CloseEvent.pool] ∧
    closesPoolBeforeSession (dropPump initPump).2 = false := by
  exact ⟨rfl, by decide⟩

/-- C3 (amended): the callback-driven teardown closes the frame pool
before the capture session, but the `Drop` teardown closes the capture
session before the frame pool. -/
theorem teardown_close_order :
    (∀ (s : PumpState) (f : Frame),
      (on_frame_arrived false f s).2 = [CloseEvent.pool, CloseEvent.session] ∧
      closesPoolBeforeSession (on_frame_arrived false f s).2 = true) ∧
    (∀ s : PumpState,
      (dropPump s).2 = [CloseEvent.session, CloseEvent.pool] ∧
      closesPoolBeforeSession (dropPump s).2 = false) := by
  refine ⟨fun s f => ⟨rfl, rfl⟩, fun s => ⟨rfl, rfl⟩⟩

/-- C5: the arrival callback closes the frame pool and capture session
exactly when forwarding the frame fails because the receiver was dropped;
on a successful send it only enqueues the frame, leaving pool and session
open, and performs no `Close` call. -/
theorem frame_arrived_teardown_iff (alive : Bool) (f : Frame) (s : PumpState)
    (hp : s.pool_open = true) (hs : s.session_open = true) :
    (((on_frame_arrived alive f s).1.pool_open = false ∧
      (on_frame_arrived alive f s).1.session_open = false) ↔ alive = false) ∧
    (alive = true →
      (on_frame_arrived alive f s).1 = { s with queue := s.queue ++ [some f] } ∧
      (on_frame_arrived alive f s).2 = []) ∧
    (alive = false →
      (on_frame_arrived alive f s).2 = [CloseEvent.pool, CloseEvent.session]) := by
  cases alive <;> simp [on_frame_arrived, hp, hs]

/-- Instantiation of `frame_arrived_teardown_iff` at a concrete state. -/
theorem frame_arrived_teardown_iff_witness :
    (((on_frame_arrived true ⟨0⟩ initPump).1.pool_open = false ∧
      (on_frame_arrived true ⟨0⟩ initPump).1.session_open = false) ↔ true = false) ∧
    (true = true →
      (on_frame_arrived true ⟨0⟩ initPump).1 =
        { initPump with queue := initPump.queue ++ [some ⟨0⟩] } ∧
      (on_frame_arrived true ⟨0⟩ initPump).2 = []) ∧
    (true = false →
      (on_frame_arrived true ⟨0⟩ initPump).2 =
        [CloseEvent.pool, CloseEvent.session]) :=
  frame_arrived_teardown_iff true ⟨0⟩ initPump rfl rfl

/-- Filtering out membership in `cl ++ [x]` is filtering out `cl` and
then `x`. -/
theorem filter_notmem_append (ret cl : List Nat) (x : Nat) :
    ret.filter (fun i => decide (i ∉ cl ++ [x])) =
      (ret.filter (fun i => decide (i ∉ cl))).filter (fun i => decide (i ≠ x)) := by
  rw [List.filter_filter]
  apply List.filter_congr
  intro a _
  by_cases h1 : a ∈ cl <;> by_cases h2 : a = x <;> simp [List.mem_append, h1, h2]

/-- The invariant holds at construction. -/
theorem initPump_inv : PumpInv initPump := by
  refine ⟨?_, ?_, ?_, ?_, ?_⟩ <;> simp [queueIds, unreleased, initPump]

/-- Every pump operation preserves the invariant. -/
theorem stepPump_inv (op : PumpOp) (s : PumpState) (h : PumpInv s) :
    PumpInv (stepPump op s) := by
  obtain ⟨hnd, hq1, hret, hcl, hun⟩ := h
  cases op with
  | stop =>
    refine ⟨?_, ?_, ?_, ?_, ?_⟩ <;>
      simp [stepPump, stop_capture, queueIds, unreleased] <;>
      simp [queueIds, unreleased] at hnd hq1 hret hcl hun <;>
      assumption
  | arrive =>
    have hfresh : s.nextId ∉ queueIds s := fun hmem => by
      have := (hq1 _ hmem).2
      omega
    have hfresh2 : s.nextId ∉ s.returned := fun hmem => by
      have := hret _ hmem
      omega
    refine ⟨?_, ?_, ?_, ?_, ?_⟩
    · simp only [stepPump, on_frame_arrived, queueIds, List.filterMap_append]
      simp [List.nodup_append]
      refine ⟨by simpa [queueIds] using hnd, ?_⟩
      intro x hx f hxf he
      exact hfresh (by
        simp [queueIds, List.mem_filterMap]
        exact ⟨x, hx, f, hxf, he⟩)
    · simp [stepPump, on_frame_arrived, queueIds, List.filterMap_append]
      intro i hi
      rcases hi with hq | he
      · obtain ⟨a, ha, f, hf, hfi⟩ := hq
        have : i ∈ queueIds s := by
          simp [queueIds, List.mem_filterMap]
          exact ⟨a, ha, f, hf, hfi⟩
        obtain ⟨h1, h2⟩ := hq1 _ this
        exact ⟨h1, by omega⟩
      · subst he
        exact ⟨hfresh2, by omega⟩
    · simp [stepPump, on_frame_arrived]
      intro i hi
      have := hret _ hi
      omega
    · simp [stepPump, on_frame_arrived]
      exact hcl
    · simp only [stepPump, on_frame_arrived]
      simpa [unreleased] using hun
  | pull =>
    cases hq : s.queue with
    | nil =>
      simp only [stepPump, try_get_next_frame, hq]
      exact ⟨hnd, hq1, hret, hcl, hun⟩
    | cons msg rest =>
      cases hc : s.current_frame with
      | some c =>
        have hcmem : c.id ∈ unreleased s := by rw [hun, hc]; simp
        have hcret : c.id ∈ s.returned := List.mem_of_mem_filter hcmem
        have hcnotcl : c.id ∉ s.closed := by
          have := List.of_mem_filter hcmem
          simpa using this
        cases msg with
        | some f =>
          have hfq : f.id ∈ queueIds s := by
            simp [queueIds, hq]
          obtain ⟨hfret, hflt⟩ := hq1 _ hfq
          have hfnotcl : f.id ∉ s.closed := fun hmem => hfret (hcl _ hmem)
          have hfnec : f.id ≠ c.id := fun he => hfret (he ▸ hcret)
          have hndrest : f.id ∉ List.filterMap (fun m => Option.map Frame.id m) rest ∧
              (rest.filterMap (fun m => Option.map Frame.id m)).Nodup := by
            have h2 := hnd
            rw [queueIds, hq] at h2
            simp [List.nodup_cons] at h2
            refine ⟨?_, h2.2⟩
            intro hmem
            simp [List.mem_filterMap] at hmem
            obtain ⟨m, hm, g, hg, hgid⟩ := hmem
            exact h2.1 m hm g hg hgid
          simp only [stepPump, try_get_next_frame, hq, hc]
          refine ⟨?_, ?_, ?_, ?_, ?_⟩
          · simpa [queueIds] using hndrest.2
          · intro i hi
            simp only [queueIds] at hi
            have hiq : i ∈ queueIds s := by
              rw [queueIds, hq]
              simp only [List.filterMap_cons]
              simp
              right
              simpa [List.mem_filterMap] using hi
            refine ⟨?_, (hq1 _ hiq).2⟩
            simp only [List.mem_append]
            rintro (hr | hf)
            · exact (hq1 _ hiq).1 hr
            · simp at hf
              subst hf
              exact hndrest.1 hi
          · intro i hi
            simp only [List.mem_append] at hi
            rcases hi with hr | hf
            · exact hret _ hr
            · simp at hf
              subst hf
              exact hflt
          · intro i hi
            simp only [List.mem_append] at hi ⊢
            rcases hi with hr | hcid
            · exact Or.inl (hcl _ hr)
            · simp at hcid
              subst hcid
              exact Or.inl hcret
          · simp only [unreleased, List.filter_append, filter_notmem_append]
            have hunc : s.returned.filter (fun i => decide (i ∉ s.closed)) = [c.id] := by
              simpa [unreleased, hc] using hun
            rw [hunc]
            simp [hfnec, hfnotcl]
        | none =>
          simp only [stepPump, try_get_next_frame, hq, hc]
          have hndrest : (rest.filterMap (fun m => Option.map Frame.id m)).Nodup := by
            have h2 := hnd
            rw [queueIds, hq] at h2
            simpa using h2
          refine ⟨?_, ?_, ?_, ?_, ?_⟩
          · simpa [queueIds] using hndrest
          · intro i hi
            simp only [queueIds] at hi
            have hiq : i ∈ queueIds s := by
              rw [queueIds, hq]
              simpa [List.mem_filterMap] using hi
            exact hq1 _ hiq
          · exact hret
          · intro i hi
            simp only [List.mem_append] at hi
            rcases hi with hr | hcid
            · exact hcl _ hr
            · simp at hcid
              subst hcid
              exact hcret
          · simp only [unreleased, filter_notmem_append]
            have hunc : s.returned.filter (fun i => decide (i ∉ s.closed)) = [c.id] := by
              simpa [unreleased, hc] using hun
            rw [hunc]
            simp
      | none =>
        have hunn : s.returned.filter (fun i => decide (i ∉ s.closed)) = [] := by
          simpa [unreleased, hc] using hun
        cases msg with
        | some f =>
          have hfq : f.id ∈ queueIds s := by
            simp [queueIds, hq]
          obtain ⟨hfret, hflt⟩ := hq1 _ hfq
          have hfnotcl : f.id ∉ s.closed := fun hmem => hfret (hcl _ hmem)
          have hndrest : f.id ∉ List.filterMap (fun m => Option.map Frame.id m) rest ∧
              (rest.filterMap (fun m => Option.map Frame.id m)).Nodup := by
            have h2 := hnd
            rw [queueIds, hq] at h2
            simp [List.nodup_cons] at h2
            refine ⟨?_, h2.2⟩
            intro hmem
            simp [List.mem_filterMap] at hmem
            obtain ⟨m, hm, g, hg, hgid⟩ := hmem
            exact h2.1 m hm g hg hgid
          simp only [stepPump, try_get_next_frame, hq, hc]
          refine ⟨?_, ?_, ?_, ?_, ?_⟩
          · simpa [queueIds] using hndrest.2
          · intro i hi
            simp only [queueIds] at hi
            have hiq : i ∈ queueIds s := by
              rw [queueIds, hq]
              simp only [List.filterMap_cons]
              simp
              right
              simpa [List.mem_filterMap] using hi
            refine ⟨?_, (hq1 _ hiq).2⟩
            simp only [List.mem_append]
            rintro (hr | hf)
            · exact (hq1 _ hiq).1 hr
            · simp at hf
              subst hf
              exact hndrest.1 hi
          · intro i hi
            simp only [List.mem_append] at hi
            rcases hi with hr | hf
            · exact hret _ hr
            · simp at hf
              subst hf
              exact hflt
          · intro i hi
            exact List.mem_append_left _ (hcl _ hi)
          · simp only [unreleased, List.filter_append]
            rw [hunn]
            simp [hfnotcl]
        | none =>
          simp only [stepPump, try_get_next_frame, hq, hc]
          have hndrest : (rest.filterMap (fun m => Option.map Frame.id m)).Nodup := by
            have h2 := hnd
            rw [queueIds, hq] at h2
            simpa using h2
          refine ⟨?_, ?_, ?_, ?_, ?_⟩
          · simpa [queueIds] using hndrest
          · intro i hi
            simp only [queueIds] at hi
            have hiq : i ∈ queueIds s := by
              rw [queueIds, hq]
              simpa [List.mem_filterMap] using hi
            exact hq1 _ hiq
          · exact hret
          · exact hcl
          · simp only [unreleased]
            rw [hunn]
            simp

/-- The invariant holds in every reachable state. -/
theorem runPump_inv (ops : List PumpOp) :
    ∀ s : PumpState, PumpInv s → PumpInv (runPump ops s) := by
  induction ops with
  | nil => intro s h; exact h
  | cons op rest ih =>
    intro s h
    exact ih _ (stepPump_inv op s h)

/-- C2: at most one unreleased captured frame exists per pump at any
time — after any sequence of pump operations the list of
returned-but-unreleased frame ids has length at most one — and for any
two consecutive successful pulls, the frame returned by the first is
`Close`d by the time the second returns. -/
theorem one_unreleased_frame :
    (∀ ops : List PumpOp,
      (unreleased (runPump ops initPump)).length ≤ 1) ∧
    (∀ (s s₁ s₂ : PumpState) (f : Frame) (r : Option Frame),
      try_get_next_frame s = some (some f, s₁) →
      try_get_next_frame s₁ = some (r, s₂) →
      f.id ∈ s₂.closed) := by
  constructor
  · intro ops
    obtain ⟨-, -, -, -, hun⟩ := runPump_inv ops initPump initPump_inv
    rw [hun]
    cases (runPump ops initPump).current_frame <;> simp
  · intro s s₁ s₂ f r h1 h2
    have hcur : s₁.current_frame = some f := by
      cases hq : s.queue with
      | nil => simp [try_get_next_frame, hq] at h1
      | cons msg rest =>
        cases msg with
        | some g =>
          simp [try_get_next_frame, hq] at h1
          obtain ⟨hgf, hs⟩ := h1
          rw [← hs]
          simp [hgf]
        | none => simp [try_get_next_frame, hq] at h1
    cases hq1 : s₁.queue with
    | nil => simp [try_get_next_frame, hq1] at h2
    | cons msg rest =>
      cases msg with
      | some g =>
        simp [try_get_next_frame, hq1, hcur] at h2
        rw [← h2.2]
        simp
      | none =>
        simp [try_get_next_frame, hq1, hcur] at h2
        rw [← h2.2]
        simp

/-- Instantiation of `one_unreleased_frame` on a concrete four-step run
and a concrete pair of consecutive pulls. -/
theorem one_unreleased_frame_witness :
    (unreleased (runPump [PumpOp.arrive, PumpOp.arrive, PumpOp.pull, PumpOp.pull]
      initPump)).length ≤ 1 ∧
    (⟨0⟩ : Frame).id ∈
      ({ queue := [], current_frame := some ⟨1⟩, pool_open := true,
         session_open := true, closed := [0], returned := [0, 1],
         nextId := 2 } : PumpState).closed :=
  ⟨one_unreleased_frame.1 [PumpOp.arrive, PumpOp.arrive, PumpOp.pull, PumpOp.pull],
   one_unreleased_frame.2
     { queue := [some ⟨0⟩, some ⟨1⟩], current_frame := none, pool_open := true,
       session_open := true, closed := [], returned := [], nextId := 2 }
     { queue := [some ⟨1⟩], current_frame := some ⟨0⟩, pool_open := true,
       session_open := true, closed := [], returned := [0], nextId := 2 }
     { queue := [], current_frame := some ⟨1⟩, pool_open := true,
       session_open := true, closed := [0], returned := [0, 1], nextId := 2 }
     ⟨0⟩ (some ⟨1⟩) (by decide) (by decide)⟩

/-- C7: `VideoEncoderDevice::enumerate` assigns each enumerated transform
its platform-reported friendly name when present and the literal
`"Unknown"` exactly when the attribute is missing
(`MF_E_ATTRIBUTENOTFOUND`); the first attribute read that fails with any
other HRESULT aborts the enumeration with that error. -/
theorem enumerate_display_names (qs : List AttrQuery) :
    enumerateNames qs =
      match firstHardFail qs with
      | some c => .error c
      | none => .ok (qs.map specName) := by
  induction qs with
  | nil => rfl
  | cons q rest ih =>
    cases q with
    | present s =>
      simp only [enumerateNames, get_string_attribute, attrCall]
      rw [ih]
      simp only [firstHardFail, List.find?, hardFails]
      cases hf : rest.find? hardFails with
      | none => simp [firstHardFail, hf, specName]
      | some q' =>
        cases q' <;>
          simp_all [firstHardFail, hf, List.find?_eq_some, hardFails, specName]
    | absent =>
      simp only [enumerateNames, get_string_attribute, attrCall]
      simp only [MF_E_ATTRIBUTENOTFOUND, if_pos rfl]
      rw [ih]
      cases hf : rest.find? hardFails with
      | none => simp [firstHardFail, hf, specName, List.find?, hardFails]
      | some q' =>
        cases q' <;> simp_all [firstHardFail, List.find?, hardFails, specName]
    | failing c =>
      by_cases hc : c = MF_E_ATTRIBUTENOTFOUND
      · subst hc
        simp only [enumerateNames, get_string_attribute, attrCall, if_pos rfl]
        rw [ih]
        cases hf : rest.find? hardFails with
        | none => simp [firstHardFail, hf, specName, List.find?, hardFails]
        | some q' =>
          cases q' <;> simp_all [firstHardFail, List.find?, hardFails, specName]
      · simp only [enumerateNames, get_string_attribute, attrCall, if_neg hc]
        simp [firstHardFail, List.find?, hardFails, hc]

/-- The event trace of a `run` is always one of the six prefixes of the
full happy-path trace. -/
theorem runModel_trace_cases (env : RunEnv) (a : RunArgs) :
    (runModel env a).2 = [] ∨
    (runModel env a).2 = [RunEvent.createFile .replaceExisting] ∨
    (runModel env a).2 =
      [RunEvent.createFile .replaceExisting, RunEvent.openStream .readWrite] ∨
    (runModel env a).2 =
      [RunEvent.createFile .replaceExisting, RunEvent.openStream .readWrite,
       RunEvent.createSession (bitRateBits a.bit_rate_mbps)] ∨
    (runModel env a).2 =
      [RunEvent.createFile .replaceExisting, RunEvent.openStream .readWrite,
       RunEvent.createSession (bitRateBits a.bit_rate_mbps),
       RunEvent.sessionStart] ∨
    (runModel env a).2 =
      [RunEvent.createFile .replaceExisting, RunEvent.openStream .readWrite,
       RunEvent.createSession (bitRateBits a.bit_rate_mbps),
       RunEvent.sessionStart, RunEvent.sessionStop] := by
  unfold runModel
  generalize env.ro_ok = b1
  generalize env.mf_ok = b2
  generalize decide (a.display_index < env.display_count) = b3
  generalize env.item_ok = b4
  generalize sizeOk env a = b5
  generalize env.path_ok = b6
  generalize env.folder_ok = b7
  generalize env.file_create_ok = b8
  generalize env.stream_open_ok = b9
  generalize env.d3d_ok = b10
  generalize env.session_ok = b11
  generalize env.session_start_ok = b12
  generalize env.session_stop_ok = b13
  generalize bitRateBits a.bit_rate_mbps = br
  cases b1 with
  | false => simp
  | true =>
  cases b2 with
  | false => simp
  | true =>
  cases hcc : env.capture_check with
  | error e => simp
  | ok supported =>
  dsimp only
  cases supported with
  | false => simp
  | true =>
  cases b3 with
  | false => simp
  | true =>
  cases b4 with
  | false => simp
  | true =>
  cases b5 with
  | false => simp
  | true =>
  cases hres : enumerateNames env.mft_encoders with
  | error e2 => simp
  | ok names =>
  dsimp only
  generalize names.isEmpty = be
  generalize decide (a.encoder_index < names.length) = bl
  cases be with
  | true => simp
  | false =>
  cases bl with
  | false => simp
  | true =>
  cases b6 with
  | false => simp
  | true =>
  cases b7 with
  | false => simp
  | true =>
  cases b8 with
  | false => simp
  | true =>
  cases b9 with
  | false => simp
  | true =>
  cases b10 with
  | false => simp
  | true =>
  cases b11 with
  | false => simp
  | true =>
  cases b12 with
  | false => simp
  | true =>
  cases b13 with
  | false => simp
  | true => simp

/-- C4: when the capture checks pass and `run` reaches the encoder
checks, an empty enumeration result or an out-of-bounds encoder index
terminates the process with exit code 1 and an empty resource trace — in
particular no output file is created and no stream is opened. -/
theorem empty_or_oob_encoder_stops_before_file (env : RunEnv) (a : RunArgs)
    (names : List String)
    (h1 : env.ro_ok = true) (h2 : env.mf_ok = true)
    (h3 : env.capture_check = .ok true)
    (h4 : a.display_index < env.display_count)
    (h5 : env.item_ok = true)
    (h6 : sizeOk env a = true)
    (h7 : enumerateNames env.mft_encoders = .ok names)
    (h8 : names = [] ∨ names.length ≤ a.encoder_index) :
    runModel env a = (.exited 1, []) := by
  rcases h8 with he | hlen
  · subst he
    simp [runModel, h1, h2, h3, h4, h5, h6, h7]
  · cases names with
    | nil => simp [runModel, h1, h2, h3, h4, h5, h6, h7]
    | cons n t =>
      have hnl : ¬ a.encoder_index < t.length + 1 := by
        simpa using Nat.not_lt.mpr hlen
      simp [runModel, h1, h2, h3, h4, h5, h6, h7, hnl]

/-- Instantiation of `empty_or_oob_encoder_stops_before_file`: with an
empty encoder list, `run` exits with code 1 having created nothing. -/
theorem empty_or_oob_encoder_stops_before_file_witness :
    runModel { happyEnv with mft_encoders := [] } sampleArgs =
      (.exited 1, []) :=
  empty_or_oob_encoder_stops_before_file _ _ [] rfl rfl rfl (by decide) rfl
    rfl rfl (Or.inl rfl)

/-- C8: a `run` never creates more than one output file, and on the
successful path it creates exactly one file with the `ReplaceExisting`
collision option, then opens its stream in `ReadWrite` mode, and only
after that constructs the encoding session. -/
theorem single_file_replace_existing (env : RunEnv) (a : RunArgs) :
    (countCreateFile (runModel env a).2 ≤ 1) ∧
    (∀ names, env.ro_ok = true → env.mf_ok = true →
      env.capture_check = .ok true →
      a.display_index < env.display_count → env.item_ok = true →
      sizeOk env a = true →
      enumerateNames env.mft_encoders = .ok names →
      names.isEmpty = false → a.encoder_index < names.length →
      env.path_ok = true → env.folder_ok = true → env.file_create_ok = true →
      env.stream_open_ok = true → env.d3d_ok = true → env.session_ok = true →
      env.session_start_ok = true → env.session_stop_ok = true →
      runModel env a =
        (.ok, [RunEvent.createFile .replaceExisting,
               RunEvent.openStream .readWrite,
               RunEvent.createSession (bitRateBits a.bit_rate_mbps),
               RunEvent.sessionStart, RunEvent.sessionStop])) := by
  constructor
  · rcases runModel_trace_cases env a with h | h | h | h | h | h <;>
      rw [h] <;> simp [countCreateFile]
  · intro names h1 h2 h3 h4 h5 h6 h7 h8 h9 h10 h11 h12 h13 h14 h15 h16 h17
    simp [runModel, h1, h2, h3, h4, h5, h6, h7, h8, h9, h10, h11, h12, h13,
      h14, h15, h16, h17]

/-- Instantiation of `single_file_replace_existing` in the all-success
environment. -/
theorem single_file_replace_existing_witness :
    countCreateFile (runModel happyEnv sampleArgs).2 ≤ 1 ∧
    runModel happyEnv sampleArgs =
      (.ok, [RunEvent.createFile .replaceExisting,
             RunEvent.openStream .readWrite,
             RunEvent.createSession (bitRateBits sampleArgs.bit_rate_mbps),
             RunEvent.sessionStart, RunEvent.sessionStop]) :=
  ⟨(single_file_replace_existing happyEnv sampleArgs).1,
   (single_file_replace_existing happyEnv sampleArgs).2 ["Encoder A"] rfl rfl
     rfl (by decide) rfl rfl rfl rfl (by decide) rfl rfl rfl rfl rfl rfl rfl
     rfl⟩

/-- C9: every bit rate handed to session construction equals the CLI
Mbps value times 1,000,000 computed in 32-bit unsigned (wrapping)
arithmetic; for values up to 4294 Mbps this is the mathematical product,
and for any value from 4295 Mbps on it is not. -/
theorem bit_rate_in_bits :
    (∀ (env : RunEnv) (a : RunArgs) (br : Nat),
      RunEvent.createSession br ∈ (runModel env a).2 →
      br = bitRateBits a.bit_rate_mbps) ∧
    (∀ mbps : Nat, bitRateBits mbps = (mbps * 1000000) % 2 ^ 32) ∧
    (∀ mbps : Nat, mbps ≤ 4294 → bitRateBits mbps = mbps * 1000000) ∧
    (∀ mbps : Nat, 4295 ≤ mbps → bitRateBits mbps ≠ mbps * 1000000) := by
  refine ⟨?_, fun mbps => rfl, ?_, ?_⟩
  · intro env a br h
    rcases runModel_trace_cases env a with hc | hc | hc | hc | hc | hc <;>
      rw [hc] at h <;> simp at h <;> exact h
  · intro mbps h
    have : mbps * 1000000 < 2 ^ 32 := by
      have h32 : (2 : Nat) ^ 32 = 4294967296 := by norm_num
      omega
    exact Nat.mod_eq_of_lt this
  · intro mbps h
    have h1 : bitRateBits mbps < 2 ^ 32 := Nat.mod_lt _ (by norm_num)
    have h32 : (2 : Nat) ^ 32 = 4294967296 := by norm_num
    have h3 : 4294967296 ≤ mbps * 1000000 := by omega
    unfold bitRateBits at h1 ⊢
    omega

/-- Instantiation of `bit_rate_in_bits` at 4295 Mbps: the session in the
all-success run receives the wrapped value, which differs from the
mathematical product. -/
theorem bit_rate_in_bits_witness :
    bitRateBits 4295 = bitRateBits sampleArgs.bit_rate_mbps ∧
    bitRateBits 4295 ≠ 4295 * 1000000 :=
  ⟨bit_rate_in_bits.1 happyEnv sampleArgs (bitRateBits 4295) (by decide),
   bit_rate_in_bits.2.2.2 4295 (by decide)⟩

/-- C10: `validate_path` accepts a path exactly when its file extension
is the literal `"mp4"`, and `main` rejects any other path by exiting
with code 1 before `run` — so before any recording resource event. -/
theorem mp4_extension_required (p : String) (env : RunEnv) (a : RunArgs) :
    (validate_path p = true ↔ extensionOf p = some "mp4") ∧
    (validate_path a.output_path = false → mainModel env a = (.exited 1, [])) := by
  constructor
  · cases h : extensionOf p with
    | none => simp [validate_path, h]
    | some e =>
      by_cases he : e = "mp4" <;> simp [validate_path, h, he]
  · intro h
    simp [mainModel, h]

/-- Instantiation of `mp4_extension_required` at an `.avi` path. -/
theorem mp4_extension_required_witness :
    (validate_path "recording.avi" = true ↔
      extensionOf "recording.avi" = some "mp4") ∧
    mainModel happyEnv badPathArgs = (.exited 1, []) :=
  ⟨(mp4_extension_required "recording.avi" happyEnv badPathArgs).1,
   (mp4_extension_required "recording.avi" happyEnv badPathArgs).2
     (by decide)⟩
